import Mathlib

/-
Verification development for the BrowserOS-agent execution engine
(src/src/lib/agent/LocalAgent.ts).

Shallow embedding conventions:
- JavaScript strings are Lean `String`s; token counting (TokenCounter, a
  module whose source is not part of this tree) is modelled as an explicit
  `count : String -> Nat` parameter.
- Tool results travel through the code as JSON strings which are parsed by
  `jsonParseToolOutput`; we model a tool result by its parsed structure
  `ParsedOutput` (the JSON round trip is the identity on the fields the agent
  inspects: `ok` and `requiresHumanInput`).
- Thrown exceptions are modelled with explicit outcome types; the
  `AbortError` raised by `checkIfAborted` is a distinguished outcome.
- The cooperative cancellation signal (`executionContext.abortSignal`) is
  modelled as a predicate on a logical clock that ticks once per tool
  dispatch; `abortedAt t = true` means the signal is set when the t-th
  dispatch would start.
- Wall-clock timestamps (`Date.now()`) carry no information for the proved
  properties; history entries record the dispatch clock instead.
-/

namespace LocalAgent

/-- A structured tool call returned by the model (name, arguments rendered
as a string, correlation id). -/
structure ToolCall where
  name : String
  args : String
  id : String
  deriving Repr, DecidableEq

/-- The parsed form of a tool result string, as produced by
jsonParseToolOutput: the agent only inspects the `ok` flag and the
`requiresHumanInput` flag; `error` carries the error text for failed calls. -/
structure ParsedOutput where
  ok : Bool
  requiresHumanInput : Bool := false
  error : Option String := none
  deriving Repr, DecidableEq

/-- The behaviour of a registered tool handler on one invocation: either it
returns a result or it throws. -/
inductive HandlerBehavior where
  | returns (out : ParsedOutput)
  | throws (msg : String)
  deriving Repr, DecidableEq

/-- The tool registry (ToolManager): a name either resolves to a handler or
to nothing (`toolManager.get(name)` returning undefined). -/
def Registry : Type := String → Option (String → HandlerBehavior)

/-- One entry of the execution history (interface SimpleExecutionEntry):
either a call record (tool, args, result) or a summary record. -/
structure HistoryEntry where
  iteration : Nat
  tool : Option String := none
  args : Option String := none
  result : Option ParsedOutput := none
  summary : Option String := none
  timestamp : Nat := 0
  deriving Repr, DecidableEq

/-- The pair of flags `_processToolCalls` reports back to the loop
(interface UnifiedResult). -/
structure UnifiedResult where
  doneToolCalled : Bool
  requiresHumanInput : Bool
  deriving Repr, DecidableEq

/-- Dispatch of a single tool call (the body of the loop in
`_processToolCalls`, lines 930-971): an unknown name yields an ok:false
result with an "Unknown tool" error; a handler that throws is caught and
converted to an ok:false result with a "Tool execution failed" error. -/
def dispatchOne (registry : Registry) (tc : ToolCall) : ParsedOutput :=
  match registry tc.name with
  | none =>
      { ok := false, requiresHumanInput := false,
        error := some ("Unknown tool: " ++ tc.name) }
  | some handler =>
      match handler tc.args with
      | .returns out => out
      | .throws msg =>
          { ok := false, requiresHumanInput := false,
            error := some ("Tool execution failed: " ++ msg) }

/-- The history entry pushed for one processed tool call
(`this.executionHistory.push` at lines 977-983). -/
def mkCallEntry (iteration : Nat) (tc : ToolCall) (out : ParsedOutput)
    (t : Nat) : HistoryEntry :=
  { iteration := iteration, tool := some tc.name, args := some tc.args,
    result := some out, summary := none, timestamp := t }

/-- The flag update applied after each call (lines 985-998): `done` sets the
completion flag only when the parsed result is ok; `human_input` sets the
suspension flag only when it is ok and carries requiresHumanInput. Flags are
only ever raised, never cleared. -/
def accUpdate (registry : Registry) (acc : UnifiedResult) (tc : ToolCall) :
    UnifiedResult :=
  let out := dispatchOne registry tc
  { doneToolCalled := acc.doneToolCalled || (tc.name == "done" && out.ok),
    requiresHumanInput := acc.requiresHumanInput ||
      (tc.name == "human_input" && out.ok && out.requiresHumanInput) }

/-- Outcome of `_processToolCalls`: either the batch completes with the
accumulated flags, the updated history and the advanced dispatch clock, or
the AbortError from `checkIfAborted` interrupts it mid-batch (the history
entries already pushed persist, since the history is a mutable field). -/
inductive ProcessOutcome where
  | ok (res : UnifiedResult) (hist : List HistoryEntry) (t : Nat)
  | aborted (hist : List HistoryEntry) (t : Nat)
  deriving Repr, DecidableEq

/-- Embedding of `_processToolCalls` (lines 912-1001): iterate over the
batch in order; before each dispatch check the cancellation signal; dispatch
(unknown names and thrown handlers both yield ok:false results); push
exactly one history entry per call; update the done / human-input flags; do
not break early. -/
def processToolCalls (registry : Registry) (iteration : Nat)
    (abortedAt : Nat → Bool) :
    List ToolCall → Nat → List HistoryEntry → UnifiedResult → ProcessOutcome
  | [], t, hist, acc => .ok acc hist t
  | tc :: rest, t, hist, acc =>
      if abortedAt t then .aborted hist t
      else
        let out := dispatchOne registry tc
        processToolCalls registry iteration abortedAt rest (t + 1)
          (hist ++ [mkCallEntry iteration tc out t])
          (accUpdate registry acc tc)

/-- Specification view of the entries a batch appends: one entry per call,
in order, dispatched at consecutive clock ticks. -/
def batchEntries (registry : Registry) (iteration : Nat) (t : Nat) :
    List ToolCall → List HistoryEntry
  | [] => []
  | tc :: rest =>
      mkCallEntry iteration tc (dispatchOne registry tc) t ::
        batchEntries registry iteration (t + 1) rest

/-- Specification view of the flags a batch produces. -/
def batchFlags (registry : Registry) (acc : UnifiedResult) :
    List ToolCall → UnifiedResult
  | [] => acc
  | tc :: rest => batchFlags registry (accUpdate registry acc tc) rest

/-- Closed form of an uncancelled batch: `_processToolCalls` returns
normally, appends exactly `batchEntries` to the history and advances the
clock by the batch length. -/
theorem processToolCalls_no_abort (registry : Registry) (iteration : Nat)
    (tcs : List ToolCall) (t : Nat) (hist : List HistoryEntry)
    (acc : UnifiedResult) :
    processToolCalls registry iteration (fun _ => false) tcs t hist acc =
      .ok (batchFlags registry acc tcs)
        (hist ++ batchEntries registry iteration t tcs) (t + tcs.length) := by
  induction tcs generalizing t hist acc with
  | nil => simp [processToolCalls, batchEntries, batchFlags]
  | cons tc rest ih =>
      simp only [processToolCalls, batchEntries, batchFlags, Bool.false_eq_true,
        if_false, List.length_cons, ih]
      have h : t + 1 + rest.length = t + (rest.length + 1) := by omega
      rw [h]
      simp

/-- The length of `batchEntries` equals the batch length. -/
theorem batchEntries_length (registry : Registry) (iteration : Nat) (t : Nat)
    (tcs : List ToolCall) :
    (batchEntries registry iteration t tcs).length = tcs.length := by
  induction tcs generalizing t with
  | nil => rfl
  | cons tc rest ih => simp [batchEntries, ih]

/-- Index-wise contents of `batchEntries`: the i-th appended entry records
the i-th call of the batch with its dispatch result. -/
theorem batchEntries_getElem (registry : Registry) (iteration : Nat) (t : Nat)
    (tcs : List ToolCall) (i : Nat) :
    (batchEntries registry iteration t tcs)[i]? =
      (tcs[i]?).map
        (fun tc => mkCallEntry iteration tc (dispatchOne registry tc) (t + i)) := by
  induction tcs generalizing t i with
  | nil => simp [batchEntries]
  | cons tc rest ih =>
      cases i with
      | zero => simp [batchEntries]
      | succ j =>
          simp only [batchEntries, List.getElem?_cons_succ, ih]
          have h : t + (j + 1) = t + 1 + j := by omega
          rw [h]

/-! ### Streaming response filter (`_invokeLLMWithStreaming`, lines 801-910) -/

/-- Substring containment over character lists (JavaScript
`String.prototype.includes`), written so that it evaluates by kernel
reduction. -/
def containsSub (hay needle : List Char) : Bool :=
  match hay with
  | [] => needle.isEmpty
  | _ :: t => needle.isPrefixOf hay || containsSub t needle

/-- String form of `containsSub`. -/
def strIncludes (hay needle : String) : Bool :=
  containsSub hay.data needle.data

/-- The tags that must never reach the user (lines 808-813). -/
def PROHIBITED_TAGS : List String :=
  ["<browser-state>", "<system-reminder>", "</browser-state>",
   "</system-reminder>"]

/-- The detection test (line 836): some prohibited tag occurs in the
accumulated visible text. -/
def detectProhibited (s : String) : Bool :=
  PROHIBITED_TAGS.any (fun tag => strIncludes s tag)

/-- The corrective instruction queued for the next iteration
(lines 852-854). -/
def correctiveReminder : String :=
  "I will never output <browser-state> or <system-reminder> tags or their contents. These are for my internal reference only. If I have completed all actions, I will complete the task and call \x27done\x27 tool."

/-- One incremental chunk of the model stream: a piece of visible text and
the tool-call deltas it carries. A non-string or absent content is modelled
as the empty string (which JavaScript treats as falsy, skipping the text
block). -/
structure Chunk where
  content : String
  toolCalls : List ToolCall := []
  deriving Repr, DecidableEq

/-- Observable actions of the streaming filter: publishing (or updating)
the live message, queueing a system reminder, counting an error. -/
inductive StreamEvent where
  | publishMessage (text : String)
  | queueSystemReminder (text : String)
  | incrementErrorMetric
  deriving Repr, DecidableEq

/-- The mutable state of the streaming loop (lines 821-825): accumulated
visible text, whether streaming of a message started and an id was created,
whether a prohibited tag was seen, and the accumulated aggregate chunk
(content and tool calls). -/
structure StreamState where
  accumulatedText : String := ""
  hasStartedThinking : Bool := false
  hasMsgId : Bool := false
  hasProhibitedContent : Bool := false
  chunkContent : String := ""
  chunkToolCalls : List ToolCall := []
  seenChunk : Bool := false
  deriving Repr, DecidableEq

/-- The final aggregated model message. -/
structure AIMessage where
  content : String
  toolCalls : List ToolCall
  deriving Repr, DecidableEq

/-- One pass of the `for await` body (lines 827-893): always concatenate the
chunk into the aggregate (tool calls accumulate independently of text); for
non-empty text, extend the accumulated visible text, run detection once
(publishing the "Processing..." placeholder when a live message exists,
queueing the corrective reminder and counting an error), and forward the
accumulated text to the UI only while no prohibited content was detected. -/
def streamStep (st : StreamState) (c : Chunk) : StreamState × List StreamEvent :=
  let base : StreamState :=
    { st with chunkContent := st.chunkContent ++ c.content,
              chunkToolCalls := st.chunkToolCalls ++ c.toolCalls,
              seenChunk := true }
  if c.content = "" then (base, [])
  else
    let acc := st.accumulatedText ++ c.content
    let newlyDetected := !st.hasProhibitedContent && detectProhibited acc
    let detectionEvents :=
      if newlyDetected then
        (if st.hasMsgId then [StreamEvent.publishMessage "Processing..."]
         else []) ++
          [StreamEvent.queueSystemReminder correctiveReminder,
           StreamEvent.incrementErrorMetric]
      else []
    if st.hasProhibitedContent || newlyDetected then
      ({ base with accumulatedText := acc, hasProhibitedContent := true },
        detectionEvents)
    else
      ({ base with accumulatedText := acc, hasStartedThinking := true,
                   hasMsgId := true },
        detectionEvents ++ [StreamEvent.publishMessage acc])

/-- Fold of `streamStep` over the whole stream, collecting events. -/
def streamFold : StreamState → List Chunk → StreamState × List StreamEvent
  | st, [] => (st, [])
  | st, c :: rest =>
      let step := streamStep st c
      let next := streamFold step.1 rest
      (next.1, step.2 ++ next.2)

/-- Whitespace test used to model `String.prototype.trim`. -/
def isWsChar (c : Char) : Bool :=
  c = ' ' || c = '\t' || c = '\n' || c = '\r'

/-- Whether the accumulated text trims to a non-empty string
(`accumulatedText.trim()` being truthy at line 896). -/
def trimNonempty (s : String) : Bool :=
  s.data.any (fun c => !isWsChar c)

/-- The final publish after the stream ends (lines 896-901): only when
thinking started, no prohibited content was seen, the text is non-blank and
a message id exists. -/
def finalEvents (st : StreamState) : List StreamEvent :=
  if st.hasStartedThinking && !st.hasProhibitedContent &&
      trimNonempty st.accumulatedText && st.hasMsgId then
    [StreamEvent.publishMessage st.accumulatedText]
  else []

/-- The final aggregate (lines 903-909): an empty message when no chunk
arrived, otherwise the accumulated content and tool calls. -/
def finalMessage (st : StreamState) : AIMessage :=
  if st.seenChunk then ⟨st.chunkContent, st.chunkToolCalls⟩ else ⟨"", []⟩

/-- Embedding of `_invokeLLMWithStreaming` on a completed stream: the fold
over the chunks followed by the final publish and the aggregate message. -/
def invokeLLMWithStreaming (chunks : List Chunk) : AIMessage × List StreamEvent :=
  let folded := streamFold {} chunks
  (finalMessage folded.1, folded.2 ++ finalEvents folded.1)

/-! ### Context budget manager (`_buildExecutionHistoryContext`,
`_summarizeExecutionHistory`, lines 538-628).

The token counter (`TokenCounter`, source not in this tree) is modelled from
the spec: a token-counting function on rendered text, passed as an explicit
`count : String -> Nat` parameter. The summarization LLM sub-call
(`getLLM` + `invokeWithRetry`, sources not in this tree) is modelled from
the spec as an oracle `summarizer cap task history` receiving the
`maxTokens` cap the code requests; `Except.error` models exhaustion of its
bounded retries. -/

/-- Canonical rendering of a parsed tool result, standing in for the raw
JSON string the handlers return (brace characters written as escapes). -/
def renderOutput (p : ParsedOutput) : String :=
  "\x7b\"ok\":" ++ (if p.ok then "true" else "false") ++
    (if p.requiresHumanInput then ",\"requiresHumanInput\":true" else "") ++
    (match p.error with
     | some e => ",\"error\":\"" ++ e ++ "\""
     | none => "") ++ "\x7d"

/-- Rendering of one history entry (lines 544-552): a summary entry renders
with its iteration-range header, a call entry with tool, arguments and
result. -/
def renderEntry (e : HistoryEntry) : String :=
  match e.summary with
  | some s =>
      "=== ITERATIONS 1-" ++ toString e.iteration ++ " SUMMARY ===\n" ++ s
  | none =>
      "Iteration " ++ toString e.iteration ++ ": Tool Call: " ++
        (e.tool.getD "") ++ "(\"" ++ (e.args.getD "") ++ "\") Tool Result: " ++
        (match e.result with
         | some r => renderOutput r
         | none => "")

/-- Rendering of a whole history, entries joined by blank lines. -/
def renderHistory (entries : List HistoryEntry) : String :=
  String.intercalate "\n\n" (entries.map renderEntry)

/-- Embedding of `_summarizeExecutionHistory` (lines 591-628): the requested
token limit is floored (identity on naturals) and raised to at least 100;
an LLM capped at that many output tokens is invoked with bounded retries. -/
def summarizeExecutionHistory
    (summarizer : Nat → String → String → Except String String)
    (userTask : String) (tokenLimit : Nat) (history : String) :
    Except String String :=
  let cap := if tokenLimit < 100 then 100 else tokenLimit
  summarizer cap userTask history

/-- Result of one call to the context builder: the context string returned
to the prompt, and the (possibly compacted) execution history field. -/
structure BuildResult where
  context : String
  history : List HistoryEntry
  deriving Repr, DecidableEq

/-- Embedding of `_buildExecutionHistoryContext` (lines 538-586): an empty
history short-circuits; a rendered history within the limit is returned
verbatim; one over the limit is summarized — on success the entire entry
sequence is replaced by a single summary record labelled with the previous
iteration, on failure the run is not aborted and the most recent 5 entries
are rendered verbatim (the history is left untouched). -/
def buildExecutionHistoryContext (count : String → Nat)
    (summarizer : Nat → String → String → Except String String)
    (iterations : Nat) (tokenLimit : Nat) (userTask : String)
    (executionHistory : List HistoryEntry) : BuildResult :=
  if executionHistory.isEmpty then
    ⟨"No previous actions attempted", executionHistory⟩
  else
    let fullHistory := renderHistory executionHistory
    let fullHistoryTokens := count fullHistory
    if fullHistoryTokens > tokenLimit then
      match summarizeExecutionHistory summarizer userTask tokenLimit fullHistory with
      | .ok summary =>
          ⟨summary,
            [{ iteration := iterations - 1, summary := some summary }]⟩
      | .error _ =>
          let recentEntries :=
            executionHistory.drop (executionHistory.length - 5)
          ⟨renderHistory recentEntries, executionHistory⟩
    else ⟨fullHistory, executionHistory⟩

/-! ### Execution orchestrator (`_executeDynamic`, `_runDynamicAgent`,
lines 272-330 and 398-463).

The per-iteration behaviour of the external world is scripted:
`script i` is what iteration i experiences from the model invocation
(`ModelTurn.failure` models any error thrown inside `_runDynamicAgent`'s
try block — stream failure, browser-state failure — all of which the
catch at line 455 converts into a no-op result), and `human w` is the
resolution of the w-th human-input wait. The context-building step
(`_buildExecutionHistoryContext`) cannot throw — its summarizer errors are
caught internally — and only rewrites the history text fed to the prompt,
so it does not appear in the loop transition; it is verified separately
above. -/

/-- What one model invocation yields: a thrown error, or a (possibly empty)
list of tool calls. -/
inductive ModelTurn where
  | failure
  | calls (tcs : List ToolCall)

/-- Resolution of one human-input wait (`_waitForHumanInput`, lines
1120-1165): the human clicked Done, clicked Skip/Abort, or the 10-minute
timeout elapsed. -/
inductive HumanAction where
  | done
  | abort
  | timeout
  deriving Repr, DecidableEq

/-- Run outcome at the `execute` boundary: normal completion, the AbortError
propagating (cancellation / human abort), or an Error with its message. -/
inductive RunOutcome where
  | completed
  | cancelled
  | failed (reason : String)
  deriving Repr, DecidableEq

/-- Error message of the iteration-limit failure (lines 324-326). -/
def maxIterMsg : String := "Maximum unified iterations (30) reached"

/-- Message published when the iteration limit is hit (lines 320-323). -/
def maxIterPublished : String := "Task did not complete within 30 iterations"

/-- Error message of the stall check (line 447); thrown inside the try
block of `_runDynamicAgent` and therefore caught at line 455. -/
def stallMsg : String :=
  "Executor failed for 3 retries - no tool calls generated"

/-- Message published before the loop starts (line 283). -/
def startPublished : String := "Starting unified task execution..."

/-- Message published when a done result stops the loop (line 313). -/
def completedPublished : String := "Task completed successfully"

/-- Message published by `_waitForHumanInput` when the 10-minute timeout
elapses (line 1150). -/
def timeoutPublished : String := "⏱️ Human input timed out after 10 minutes"

/-- Message published when the human aborts (line 303). -/
def humanAbortPublished : String := "❌ Task aborted by human"

/-- Message published when the loop resumes after a human-input round trip
(line 307) — also reached when the wait timed out, since only the literal
response abort is checked. -/
def humanContinuePublished : String :=
  "✅ Human completed manual action. Continuing..."

/-- What `_handleExecutionError` publishes for a given outcome: an
AbortError is logged and produces no user-visible error message; an Error
publishes its message (lines 1026-1036). -/
def handleExecutionError : RunOutcome → Option String
  | .failed msg => some ("Error: " ++ msg)
  | _ => none

/-- What `_runDynamicAgent` leaves behind: the result handed to the loop,
and the mutated agent fields (no-call counter, history, dispatch clock). -/
structure StepOut where
  result : UnifiedResult
  counter : Nat
  history : List HistoryEntry
  time : Nat

/-- Embedding of `_runDynamicAgent` (lines 398-463). A model failure is
caught by the catch at line 455 and becomes a no-op result with no state
change (in particular the no-call counter is NOT touched on that path). An
empty tool-call batch increments the no-call counter; when the counter
reaches 3 the stall Error of line 447 is thrown — and immediately caught by
the same catch, so the returned result is the same no-op. A non-empty batch
resets the counter to 0 (line 435, before dispatch) and processes every
call; an AbortError raised mid-batch is also swallowed by the catch, the
entries already pushed persisting. -/
def runDynamicAgentStep (registry : Registry) (abortedAt : Nat → Bool)
    (turn : ModelTurn) (iteration counter : Nat)
    (history : List HistoryEntry) (time : Nat) : StepOut :=
  match turn with
  | .failure => ⟨⟨false, false⟩, counter, history, time⟩
  | .calls [] => ⟨⟨false, false⟩, counter + 1, history, time⟩
  | .calls (tc :: rest) =>
      match processToolCalls registry iteration abortedAt (tc :: rest) time
          history ⟨false, false⟩ with
      | .ok res hist2 t2 => ⟨res, 0, hist2, t2⟩
      | .aborted hist2 t2 => ⟨⟨false, false⟩, 0, hist2, t2⟩

/-- The loop-owned execution state (§ExecutionState): iteration counter,
consecutive-no-tool-call counter, history, dispatch clock, plus
instrumentation the theorems read off (model invocations, human waits,
published messages). -/
structure LoopSt where
  iterations : Nat := 0
  counter : Nat := 0
  history : List HistoryEntry := []
  time : Nat := 0
  llmCalls : Nat := 0
  waits : Nat := 0
  messages : List String := []
  deriving Repr, DecidableEq

/-- A finished run: outcome plus the final state. -/
structure RunResult where
  outcome : RunOutcome
  iterations : Nat
  counter : Nat
  history : List HistoryEntry
  time : Nat
  llmCalls : Nat
  waits : Nat
  messages : List String
  deriving Repr, DecidableEq

/-- Packaging of the final state with an outcome. -/
def mkRunResult (o : RunOutcome) (st : LoopSt) : RunResult :=
  ⟨o, st.iterations, st.counter, st.history, st.time, st.llmCalls, st.waits,
    st.messages⟩

/-- Embedding of the while loop of `_executeDynamic` (lines 285-327), with
fuel equal to the remaining iteration budget (30 minus the iterations
already run). Each pass: check the cancellation token (AbortError →
cancelled), increment the iteration counter, run the agent (one model
invocation), handle a human-input requirement (a wait that observes the
cancellation signal first, then the scripted resolution: abort throws the
AbortError of line 304; done and timeout alike fall through to the
continue message of line 307), then stop on a done result. Exhausted fuel
is the loop exiting with iterations = 30, after which lines 319-327 publish
and throw the iteration-limit Error. -/
def executeDynamicLoop (registry : Registry) (script : Nat → ModelTurn)
    (human : Nat → HumanAction) (abortedAt : Nat → Bool) :
    Nat → LoopSt → RunResult
  | 0, st =>
      mkRunResult (.failed maxIterMsg)
        { st with messages := st.messages ++ [maxIterPublished] }
  | fuel + 1, st =>
      if abortedAt st.time then mkRunResult .cancelled st
      else
        let iter := st.iterations + 1
        let step := runDynamicAgentStep registry abortedAt (script iter) iter
          st.counter st.history st.time
        let st1 : LoopSt :=
          { st with iterations := iter, counter := step.counter,
                    history := step.history, time := step.time,
                    llmCalls := st.llmCalls + 1 }
        if step.result.requiresHumanInput then
          let action :=
            if abortedAt st1.time then HumanAction.abort else human st1.waits
          let st2 : LoopSt := { st1 with waits := st1.waits + 1 }
          match action with
          | .abort =>
              mkRunResult .cancelled
                { st2 with messages := st2.messages ++ [humanAbortPublished] }
          | .timeout =>
              let st3 : LoopSt :=
                { st2 with messages := st2.messages ++
                    [timeoutPublished, humanContinuePublished] }
              if step.result.doneToolCalled then
                mkRunResult .completed
                  { st3 with messages := st3.messages ++ [completedPublished] }
              else executeDynamicLoop registry script human abortedAt fuel st3
          | .done =>
              let st3 : LoopSt :=
                { st2 with messages := st2.messages ++
                    [humanContinuePublished] }
              if step.result.doneToolCalled then
                mkRunResult .completed
                  { st3 with messages := st3.messages ++ [completedPublished] }
              else executeDynamicLoop registry script human abortedAt fuel st3
        else
          if step.result.doneToolCalled then
            mkRunResult .completed
              { st1 with messages := st1.messages ++ [completedPublished] }
          else executeDynamicLoop registry script human abortedAt fuel st1

/-- The fresh state of a run (`_initialize`, lines 152-155, plus the start
message of line 283). -/
def initLoopSt : LoopSt := { messages := [startPublished] }

/-- A full dynamic run: the loop entered with 30 iterations of budget. -/
def runDynamic (registry : Registry) (script : Nat → ModelTurn)
    (human : Nat → HumanAction) (abortedAt : Nat → Bool) : RunResult :=
  executeDynamicLoop registry script human abortedAt 30 initLoopSt

/-- The cancellation signal as a threshold predicate on the dispatch clock:
set from the T-th dispatch onward (monotone, as an AbortSignal is). -/
def abortPred (T : Nat) : Nat → Bool := fun t => decide (T ≤ t)

/-! ### Shared fixtures and helper lemmas -/

/-- A registry with no tools registered. -/
def emptyRegistry : Registry := fun _ => none

/-- A human-response oracle that never answers (every wait times out). -/
def noHuman : Nat → HumanAction := fun _ => HumanAction.timeout

/-- The cancellation signal never set. -/
def neverAbort : Nat → Bool := fun _ => false

/-- Any-characterization of the batch flags: the done flag is raised exactly
when some call named done has an ok parsed result, the human-input flag
exactly when some call named human_input has an ok result carrying
requiresHumanInput. -/
theorem batchFlags_any (registry : Registry) (acc : UnifiedResult)
    (tcs : List ToolCall) :
    batchFlags registry acc tcs =
      ⟨acc.doneToolCalled ||
          tcs.any (fun tc => tc.name == "done" && (dispatchOne registry tc).ok),
        acc.requiresHumanInput ||
          tcs.any (fun tc => tc.name == "human_input" &&
            (dispatchOne registry tc).ok &&
            (dispatchOne registry tc).requiresHumanInput)⟩ := by
  induction tcs generalizing acc with
  | nil => simp [batchFlags]
  | cons tc rest ih =>
      simp only [batchFlags, accUpdate, List.any_cons, ih]
      simp [Bool.or_assoc]

/-- The flags-only view of one iteration of `_runDynamicAgent` under a clear
cancellation signal: a model failure and an empty batch report nothing; a
non-empty batch reports its accumulated flags. -/
def stepResult (registry : Registry) : ModelTurn → UnifiedResult
  | .failure => ⟨false, false⟩
  | .calls [] => ⟨false, false⟩
  | .calls (tc :: rest) => batchFlags registry ⟨false, false⟩ (tc :: rest)

/-- With the cancellation signal clear, the result field of
`runDynamicAgentStep` depends only on the model turn and the registry. -/
theorem runDynamicAgentStep_result (registry : Registry) (turn : ModelTurn)
    (iteration counter : Nat) (history : List HistoryEntry) (t : Nat) :
    (runDynamicAgentStep registry (fun _ => false) turn iteration counter
        history t).result = stepResult registry turn := by
  cases turn with
  | failure => rfl
  | calls tcs =>
      cases tcs with
      | nil => rfl
      | cons tc rest =>
          simp [runDynamicAgentStep, stepResult, processToolCalls_no_abort]

/-! ### C1 — one result per call, in order, errors converted -/

/-- C1: for every batch of tool calls returned by the model in one
iteration, the orchestrator dispatches the calls in the order received and
records exactly one result per call in the execution history: the batch
appends exactly one entry per call (index i records call i, dispatched at
clock t+i), a handler that throws yields an ok:false result, an unknown
name yields an ok:false result rather than an exception, and the batch
returns normally so the run continues. -/
theorem c1_one_result_per_call :
    (∀ (registry : Registry) (iteration : Nat) (tcs : List ToolCall) (t : Nat)
        (hist : List HistoryEntry) (acc : UnifiedResult),
      processToolCalls registry iteration (fun _ => false) tcs t hist acc =
        ProcessOutcome.ok (batchFlags registry acc tcs)
          (hist ++ batchEntries registry iteration t tcs) (t + tcs.length))
    ∧ (∀ (registry : Registry) (iteration t : Nat) (tcs : List ToolCall),
        (batchEntries registry iteration t tcs).length = tcs.length)
    ∧ (∀ (registry : Registry) (iteration t : Nat) (tcs : List ToolCall)
        (i : Nat),
        (batchEntries registry iteration t tcs)[i]? =
          (tcs[i]?).map (fun tc =>
            mkCallEntry iteration tc (dispatchOne registry tc) (t + i)))
    ∧ (∀ (registry : Registry) (tc : ToolCall), registry tc.name = none →
        dispatchOne registry tc =
          { ok := false, requiresHumanInput := false,
            error := some ("Unknown tool: " ++ tc.name) })
    ∧ (∀ (registry : Registry) (tc : ToolCall)
        (handler : String → HandlerBehavior) (msg : String),
        registry tc.name = some handler → handler tc.args = .throws msg →
        dispatchOne registry tc =
          { ok := false, requiresHumanInput := false,
            error := some ("Tool execution failed: " ++ msg) }) := by
  refine ⟨processToolCalls_no_abort, ?_, ?_, ?_, ?_⟩
  · intro registry iteration t tcs
    exact batchEntries_length registry iteration t tcs
  · intro registry iteration t tcs i
    exact batchEntries_getElem registry iteration t tcs i
  · intro registry tc h
    unfold dispatchOne
    rw [h]
  · intro registry tc handler msg h1 h2
    unfold dispatchOne
    rw [h1]
    simp only []
    rw [h2]

/-- A tool whose handler returns ok. -/
def tcEcho : ToolCall := ⟨"echo", "x", "1"⟩

/-- A tool whose handler throws. -/
def tcBoom : ToolCall := ⟨"boom", "y", "2"⟩

/-- A name that is not in the registry. -/
def tcNone : ToolCall := ⟨"nosuch", "z", "3"⟩

/-- A registry with one returning and one throwing handler. -/
def regW : Registry := fun name =>
  if name = "echo" then some (fun _ => .returns { ok := true })
  else if name = "boom" then some (fun _ => .throws "kaput")
  else none

/-- Witness for C1 at a concrete three-call batch (one ok call, one
throwing call, one unknown name): exactly three entries, in order, the
failures converted to ok:false results. -/
theorem c1_witness :
    processToolCalls regW 1 (fun _ => false) [tcEcho, tcBoom, tcNone] 0 []
        ⟨false, false⟩ =
      ProcessOutcome.ok ⟨false, false⟩
        [mkCallEntry 1 tcEcho { ok := true } 0,
         mkCallEntry 1 tcBoom
           { ok := false, error := some "Tool execution failed: kaput" } 1,
         mkCallEntry 1 tcNone
           { ok := false, error := some "Unknown tool: nosuch" } 2] 3
    ∧ dispatchOne regW tcNone =
        { ok := false, error := some "Unknown tool: nosuch" }
    ∧ dispatchOne regW tcBoom =
        { ok := false, error := some "Tool execution failed: kaput" } := by
  obtain ⟨h1, _, _, h4, h5⟩ := c1_one_result_per_call
  refine ⟨?_, ?_, ?_⟩
  · rw [h1]
    decide
  · exact h4 regW tcNone rfl
  · exact h5 regW tcBoom (fun _ => .throws "kaput") "kaput" rfl rfl

/-! ### C2 — the stall guard is swallowed by the catch-all (code bug) -/

/-- C2 (evaluation at the failing input): with a model that returns zero
tool calls on every iteration, the stall Error thrown at iteration 3 is
caught by the catch of line 455, so the run does NOT fail after 3
consecutive empty turns with the stall reason: it keeps iterating to the
30-iteration cap (the no-call counter reaching 30) and fails with the
iteration-limit reason instead. -/
theorem c2_stall_error_swallowed :
    (runDynamic emptyRegistry (fun _ => .calls []) noHuman neverAbort).outcome
        = RunOutcome.failed maxIterMsg
    ∧ (runDynamic emptyRegistry (fun _ => .calls []) noHuman
        neverAbort).iterations = 30
    ∧ (runDynamic emptyRegistry (fun _ => .calls []) noHuman
        neverAbort).counter = 30
    ∧ (runDynamic emptyRegistry (fun _ => .calls []) noHuman
        neverAbort).outcome ≠ RunOutcome.failed stallMsg := by
  decide

/-! ### C3 — a human-input timeout is not treated as abort (code bug) -/

/-- The registry for the human-input timeout scenario: a human_input tool
that requests suspension, and a done tool. -/
def regHuman : Registry := fun name =>
  if name = "human_input" then
    some (fun _ => .returns { ok := true, requiresHumanInput := true })
  else if name = "done" then some (fun _ => .returns { ok := true })
  else none

/-- The model script for the human-input timeout scenario: request human
input on iteration 1, call done on iteration 2. -/
def scriptHuman : Nat → ModelTurn := fun i =>
  if i = 1 then .calls [⟨"human_input", "prompt", "a"⟩]
  else if i = 2 then .calls [⟨"done", "ok", "b"⟩]
  else .calls []

/-- C3 (evaluation at the failing input): when the pending human-input wait
receives no response within the 10-minute window, `_waitForHumanInput`
returns the timeout outcome, but `_executeDynamic` only compares the
response against abort — so the run publishes the timed-out error message
AND the "Human completed manual action" continuation, resumes iterating,
and completes normally on the next iteration instead of stopping. -/
theorem c3_timeout_not_treated_as_abort :
    (runDynamic regHuman scriptHuman noHuman neverAbort).outcome
        = RunOutcome.completed
    ∧ (runDynamic regHuman scriptHuman noHuman neverAbort).iterations = 2
    ∧ (runDynamic regHuman scriptHuman noHuman neverAbort).waits = 1
    ∧ timeoutPublished ∈ (runDynamic regHuman scriptHuman noHuman
        neverAbort).messages
    ∧ humanContinuePublished ∈ (runDynamic regHuman scriptHuman noHuman
        neverAbort).messages
    ∧ humanAbortPublished ∉ (runDynamic regHuman scriptHuman noHuman
        neverAbort).messages := by
  decide

/-! ### C8 — the main model invocation is not retried -/

/-- Each pass of the loop performs exactly one model invocation: the
difference between invocations and iterations is invariant. -/
theorem loop_llmCalls_iterations (registry : Registry)
    (script : Nat → ModelTurn) (human : Nat → HumanAction)
    (abortedAt : Nat → Bool) :
    ∀ (fuel : Nat) (st : LoopSt),
      (executeDynamicLoop registry script human abortedAt fuel st).llmCalls
          + st.iterations =
        (executeDynamicLoop registry script human abortedAt fuel st).iterations
          + st.llmCalls := by
  intro fuel
  induction fuel with
  | zero => intro st; simp [executeDynamicLoop, mkRunResult]; omega
  | succ n ih =>
      intro st
      have key : ∀ S : LoopSt, S.iterations = st.iterations + 1 →
          S.llmCalls = st.llmCalls + 1 →
          (executeDynamicLoop registry script human abortedAt n S).llmCalls
              + st.iterations =
            (executeDynamicLoop registry script human abortedAt n
              S).iterations + st.llmCalls := by
        intro S h1 h2
        have h := ih S
        omega
      simp only [executeDynamicLoop]
      split
      · simp [mkRunResult]; omega
      · split
        · split
          · simp [mkRunResult]; omega
          · split
            · simp [mkRunResult]; omega
            · exact key _ rfl rfl
          · split
            · simp [mkRunResult]; omega
            · exact key _ rfl rfl
        · split
          · simp [mkRunResult]; omega
          · exact key _ rfl rfl

/-- C8 counterexample: with a main model invocation that fails every time,
the run performs 30 invocations — one per iteration, with no within-
iteration retry — and the failure surfaces only as the iteration-limit
failure at the 30-iteration cap, not after a bounded number (3) of retries
of the same prompt. -/
theorem c8_counterexample :
    (runDynamic emptyRegistry (fun _ => .failure) noHuman neverAbort).llmCalls
        = 30
    ∧ (runDynamic emptyRegistry (fun _ => .failure) noHuman neverAbort).outcome
        = RunOutcome.failed maxIterMsg
    ∧ ¬((runDynamic emptyRegistry (fun _ => .failure) noHuman
        neverAbort).llmCalls ≤ 4) := by
  decide

/-- C8 (amended): a failure of the main model invocation is caught within
the iteration and is not retried — every run performs exactly one model
invocation per iteration — and a model that always fails drives the run to
the 30-iteration cap, where the iteration-limit failure surfaces. -/
theorem c8_amended_no_retry :
    (∀ (registry : Registry) (human : Nat → HumanAction),
      (runDynamic registry (fun _ => .failure) human neverAbort).outcome
          = RunOutcome.failed maxIterMsg
      ∧ (runDynamic registry (fun _ => .failure) human neverAbort).llmCalls
          = 30)
    ∧ (∀ (registry : Registry) (script : Nat → ModelTurn)
        (human : Nat → HumanAction) (abortedAt : Nat → Bool),
      (runDynamic registry script human abortedAt).llmCalls =
        (runDynamic registry script human abortedAt).iterations) := by
  constructor
  · intro registry human
    exact ⟨rfl, rfl⟩
  · intro registry script human abortedAt
    have h := loop_llmCalls_iterations registry script human abortedAt 30
      initLoopSt
    simpa [runDynamic, initLoopSt] using h

/-! ### C9 — cancellation stops dispatching and is a distinct outcome -/

/-- Projection of the dispatch clock out of a batch outcome. -/
def processTime : ProcessOutcome → Nat
  | .ok _ _ t => t
  | .aborted _ t => t

/-- Within a batch, the cancellation check before each dispatch keeps the
dispatch clock at or below the signal threshold. -/
theorem processToolCalls_time_le (registry : Registry) (iteration T : Nat)
    (tcs : List ToolCall) :
    ∀ (t : Nat) (hist : List HistoryEntry) (acc : UnifiedResult), t ≤ T →
      processTime (processToolCalls registry iteration (abortPred T) tcs t
        hist acc) ≤ T := by
  induction tcs with
  | nil =>
      intro t hist acc h
      simpa [processToolCalls, processTime] using h
  | cons tc rest ih =>
      intro t hist acc h
      simp only [processToolCalls, abortPred]
      by_cases hT : T ≤ t
      · simp [hT, processTime]
        exact h
      · have hlt : t < T := by omega
        simp only [decide_eq_true_eq, hT, if_false]
        exact ih (t + 1) _ _ (by omega)

/-- One iteration of the agent never advances the dispatch clock past the
signal threshold. -/
theorem runDynamicAgentStep_time_le (registry : Registry) (T : Nat)
    (turn : ModelTurn) (iteration counter : Nat)
    (history : List HistoryEntry) (t : Nat) (h : t ≤ T) :
    (runDynamicAgentStep registry (abortPred T) turn iteration counter
      history t).time ≤ T := by
  cases turn with
  | failure => simpa [runDynamicAgentStep] using h
  | calls tcs =>
      cases tcs with
      | nil => simpa [runDynamicAgentStep] using h
      | cons tc rest =>
          have hp := processToolCalls_time_le registry iteration T
            (tc :: rest) t history ⟨false, false⟩ h
          simp only [runDynamicAgentStep]
          cases hpc : processToolCalls registry iteration (abortPred T)
              (tc :: rest) t history ⟨false, false⟩ with
          | ok res hist2 t2 => rw [hpc] at hp; simpa [processTime] using hp
          | aborted hist2 t2 => rw [hpc] at hp; simpa [processTime] using hp

/-- The whole loop never advances the dispatch clock past the signal
threshold: no tool call is dispatched at or after the moment the signal is
set. -/
theorem loop_time_le (registry : Registry) (script : Nat → ModelTurn)
    (human : Nat → HumanAction) (T : Nat) :
    ∀ (fuel : Nat) (st : LoopSt), st.time ≤ T →
      (executeDynamicLoop registry script human (abortPred T) fuel st).time
        ≤ T := by
  intro fuel
  induction fuel with
  | zero => intro st h; simpa [executeDynamicLoop, mkRunResult] using h
  | succ n ih =>
      intro st h
      have hstep := runDynamicAgentStep_time_le registry T
        (script (st.iterations + 1)) (st.iterations + 1) st.counter
        st.history st.time h
      simp only [executeDynamicLoop]
      split
      · simpa [mkRunResult] using h
      · split
        · split
          · simpa [mkRunResult] using hstep
          · split
            · simpa [mkRunResult] using hstep
            · exact ih _ hstep
          · split
            · simpa [mkRunResult] using hstep
            · exact ih _ hstep
        · split
          · simpa [mkRunResult] using hstep
          · exact ih _ hstep

/-- C9: the cancellation token is checked at the top of every iteration and
before each tool dispatch within a batch, so (i) for every signal threshold
T, the run dispatches no tool call at or after the signal (the dispatch
clock stays at most T); (ii) with the signal set from the start and no
human-input wait pending, the run transitions to the cancelled outcome with
zero tool calls invoked, an empty history and zero iterations; (iii)
cancellation propagates as a distinct non-error outcome: the error handler
publishes no error message for it, while a genuine failure publishes its
reason. -/
theorem c9_cancellation :
    (∀ (registry : Registry) (script : Nat → ModelTurn)
        (human : Nat → HumanAction) (T : Nat),
      (runDynamic registry script human (abortPred T)).time ≤ T)
    ∧ (∀ (registry : Registry) (script : Nat → ModelTurn)
        (human : Nat → HumanAction),
      (runDynamic registry script human (abortPred 0)).outcome
          = RunOutcome.cancelled
      ∧ (runDynamic registry script human (abortPred 0)).time = 0
      ∧ (runDynamic registry script human (abortPred 0)).history = []
      ∧ (runDynamic registry script human (abortPred 0)).iterations = 0)
    ∧ handleExecutionError RunOutcome.cancelled = none
    ∧ (∀ reason : String,
        handleExecutionError (RunOutcome.failed reason)
          = some ("Error: " ++ reason)) := by
  refine ⟨?_, ?_, rfl, fun reason => rfl⟩
  · intro registry script human T
    exact loop_time_le registry script human T 30 initLoopSt (Nat.zero_le T)
  · intro registry script human
    exact ⟨rfl, rfl, rfl, rfl⟩

/-! ### C10 — done completes only when ok; human_input suspends only when
ok and requiresHumanInput -/

/-- A registry whose done tool reports a not-ok result. -/
def regDoneNotOk : Registry := fun name =>
  if name = "done" then
    some (fun _ => .returns { ok := false, error := some "not finished" })
  else none

/-- A done call issued by the model. -/
def doneNotOkCall : ToolCall := ⟨"done", "success", "d0"⟩

/-- C10: the done flag is raised exactly by a call named done whose parsed
result is ok, and the human-input flag exactly by a call named human_input
whose parsed result is ok and carries requiresHumanInput (the any-
characterization of the batch flags); concretely, a model that calls done
with a not-ok result on every iteration never sets the completion flag, so
the orchestration loop keeps iterating to the 30-iteration cap. -/
theorem c10_flag_conditions :
    (∀ (registry : Registry) (acc : UnifiedResult) (tcs : List ToolCall),
      batchFlags registry acc tcs =
        ⟨acc.doneToolCalled ||
            tcs.any (fun tc => tc.name == "done" &&
              (dispatchOne registry tc).ok),
          acc.requiresHumanInput ||
            tcs.any (fun tc => tc.name == "human_input" &&
              (dispatchOne registry tc).ok &&
              (dispatchOne registry tc).requiresHumanInput)⟩)
    ∧ (runDynamic regDoneNotOk (fun _ => .calls [doneNotOkCall]) noHuman
        neverAbort).outcome = RunOutcome.failed maxIterMsg
    ∧ (runDynamic regDoneNotOk (fun _ => .calls [doneNotOkCall]) noHuman
        neverAbort).iterations = 30 := by
  refine ⟨batchFlags_any, ?_, ?_⟩
  · decide
  · decide

/-! ### C5 — a done result stops the loop at iteration k -/

/-- Loop induction for C5: from any state short of the done iteration, with
the signal clear, the loop runs exactly up to iteration k, where the done
result completes the run. -/
theorem c5_aux (registry : Registry) (script : Nat → ModelTurn)
    (human : Nat → HumanAction) (k : Nat) (hk2 : k ≤ 30)
    (hprev : ∀ i, 1 ≤ i → i < k → stepResult registry (script i) =
      ⟨false, false⟩)
    (hdone : (stepResult registry (script k)).doneToolCalled = true)
    (hnh : (stepResult registry (script k)).requiresHumanInput = false) :
    ∀ (fuel : Nat) (st : LoopSt), st.iterations + fuel = 30 →
      st.iterations < k →
      (executeDynamicLoop registry script human (fun _ => false) fuel
          st).outcome = RunOutcome.completed
      ∧ (executeDynamicLoop registry script human (fun _ => false) fuel
          st).iterations = k := by
  intro fuel
  induction fuel with
  | zero => intro st h1 h2; omega
  | succ n ih =>
      intro st h1 h2
      have hres := runDynamicAgentStep_result registry
        (script (st.iterations + 1)) (st.iterations + 1) st.counter
        st.history st.time
      simp only [executeDynamicLoop, Bool.false_eq_true, if_false]
      by_cases hik : st.iterations + 1 = k
      · have hd : (runDynamicAgentStep registry (fun _ => false)
            (script (st.iterations + 1)) (st.iterations + 1) st.counter
            st.history st.time).result.doneToolCalled = true := by
          rw [hres, hik]; exact hdone
        have hh : (runDynamicAgentStep registry (fun _ => false)
            (script (st.iterations + 1)) (st.iterations + 1) st.counter
            st.history st.time).result.requiresHumanInput = false := by
          rw [hres, hik]; exact hnh
        simp only [hd, hh, Bool.false_eq_true, if_false, if_true]
        exact ⟨rfl, by simp [mkRunResult]; omega⟩
      · have hr : stepResult registry (script (st.iterations + 1)) =
            ⟨false, false⟩ := hprev _ (by omega) (by omega)
        have hd : (runDynamicAgentStep registry (fun _ => false)
            (script (st.iterations + 1)) (st.iterations + 1) st.counter
            st.history st.time).result.doneToolCalled = false := by
          rw [hres, hr]
        have hh : (runDynamicAgentStep registry (fun _ => false)
            (script (st.iterations + 1)) (st.iterations + 1) st.counter
            st.history st.time).result.requiresHumanInput = false := by
          rw [hres, hr]
        simp only [hd, hh, Bool.false_eq_true, if_false]
        refine ih _ ?_ ?_
        · show st.iterations + 1 + n = 30
          omega
        · show st.iterations + 1 < k
          omega

/-- C5: if the batch of iteration k (k ≤ cap) signals done — and the
previous iterations signalled neither done nor a human-input requirement —
the run reports successful completion and no iteration k+1 occurs: the loop
exits with exactly k iterations, invoking the model k times and dispatching
no further batch. -/
theorem c5_done_stops_loop (registry : Registry) (script : Nat → ModelTurn)
    (human : Nat → HumanAction) (k : Nat) (hk1 : 1 ≤ k) (hk2 : k ≤ 30)
    (hprev : ∀ i, 1 ≤ i → i < k → stepResult registry (script i) =
      ⟨false, false⟩)
    (hdone : (stepResult registry (script k)).doneToolCalled = true)
    (hnh : (stepResult registry (script k)).requiresHumanInput = false) :
    (runDynamic registry script human (fun _ => false)).outcome =
        RunOutcome.completed
    ∧ (runDynamic registry script human (fun _ => false)).iterations = k :=
  c5_aux registry script human k hk2 hprev hdone hnh 30 initLoopSt rfl
    (by show (0 : Nat) < k; omega)

/-- A registry with only an ok done tool. -/
def regDone : Registry := fun name =>
  if name = "done" then some (fun _ => .returns { ok := true }) else none

/-- A model that calls done immediately. -/
def scriptDone : Nat → ModelTurn := fun _ => .calls [⟨"done", "r", "w1"⟩]

/-- Witness for C5 at k = 1: a model that calls done on the first iteration
completes the run in exactly one iteration. -/
theorem c5_witness :
    (runDynamic regDone scriptDone noHuman (fun _ => false)).outcome =
        RunOutcome.completed
    ∧ (runDynamic regDone scriptDone noHuman (fun _ => false)).iterations
        = 1 :=
  c5_done_stops_loop regDone scriptDone noHuman 1 (by omega) (by omega)
    (fun i h1 h2 => absurd h2 (by omega)) (by decide) (by decide)

/-! ### C6 — marker suppression never drops tool calls -/

/-- Every step accumulates the chunk's tool calls into the aggregate,
whatever the text branch does. -/
theorem streamStep_chunkToolCalls (st : StreamState) (c : Chunk) :
    (streamStep st c).1.chunkToolCalls = st.chunkToolCalls ++ c.toolCalls := by
  unfold streamStep
  by_cases h : c.content = ""
  · simp [h]
  · simp only [h, if_false]
    split <;> rfl

/-- Every step marks the aggregate as having seen a chunk. -/
theorem streamStep_seenChunk (st : StreamState) (c : Chunk) :
    (streamStep st c).1.seenChunk = true := by
  unfold streamStep
  by_cases h : c.content = ""
  · simp [h]
  · simp only [h, if_false]
    split <;> rfl

/-- The fold accumulates exactly the concatenation of all chunk tool
calls. -/
theorem streamFold_chunkToolCalls (chunks : List Chunk) :
    ∀ st : StreamState, (streamFold st chunks).1.chunkToolCalls =
      st.chunkToolCalls ++ (chunks.map Chunk.toolCalls).flatten := by
  induction chunks with
  | nil => intro st; simp [streamFold]
  | cons c rest ih =>
      intro st
      simp only [streamFold, List.map_cons, List.flatten]
      rw [ih, streamStep_chunkToolCalls]
      simp [List.append_assoc]

/-- The seen-chunk mark persists through the fold. -/
theorem streamFold_seenChunk (chunks : List Chunk) :
    ∀ st : StreamState, st.seenChunk = true →
      (streamFold st chunks).1.seenChunk = true := by
  induction chunks with
  | nil => intro st h; simpa [streamFold] using h
  | cons c rest ih =>
      intro st h
      simp only [streamFold]
      exact ih _ (streamStep_seenChunk st c)

/-- C6: (i) for every model output stream, the tool calls of the final
aggregated message are exactly the concatenation, in order, of the tool
calls accumulated from the chunks — preserved regardless of marker
detection; (ii) once a forbidden marker has been detected, a further chunk
forwards no visible text (it emits no events at all) and the detection flag
never resets; (iii) at the detecting chunk, the events are exactly the
neutral "Processing..." placeholder replacing the displayed partial output
(when a live message exists), the queued corrective instruction, and the
error count; (iv) the final flush publishes nothing when a marker was
detected. -/
theorem c6_stream_filter :
    (∀ chunks : List Chunk, (invokeLLMWithStreaming chunks).1.toolCalls =
      (chunks.map Chunk.toolCalls).flatten)
    ∧ (∀ (st : StreamState) (c : Chunk), st.hasProhibitedContent = true →
        (streamStep st c).2 = []
        ∧ (streamStep st c).1.hasProhibitedContent = true)
    ∧ (∀ (st : StreamState) (c : Chunk), st.hasProhibitedContent = false →
        ¬(c.content = "") →
        detectProhibited (st.accumulatedText ++ c.content) = true →
        (streamStep st c).2 =
          (if st.hasMsgId then [StreamEvent.publishMessage "Processing..."]
           else []) ++
            [StreamEvent.queueSystemReminder correctiveReminder,
             StreamEvent.incrementErrorMetric]
        ∧ (streamStep st c).1.hasProhibitedContent = true)
    ∧ (∀ st : StreamState, st.hasProhibitedContent = true →
        finalEvents st = []) := by
  refine ⟨?_, ?_, ?_, ?_⟩
  · intro chunks
    cases chunks with
    | nil => rfl
    | cons c rest =>
        have hseen : (streamFold ({} : StreamState) (c :: rest)).1.seenChunk
            = true := by
          simp only [streamFold]
          exact streamFold_seenChunk rest _ (streamStep_seenChunk {} c)
        have htc := streamFold_chunkToolCalls (c :: rest) ({} : StreamState)
        unfold invokeLLMWithStreaming finalMessage
        simp only [hseen, if_true]
        simpa using htc
  · intro st c h
    unfold streamStep
    by_cases hc : c.content = ""
    · simp [hc, h]
    · simp [hc, h]
  · intro st c h hc hdet
    unfold streamStep
    simp [hc, h, hdet]
  · intro st h
    unfold finalEvents
    simp [h]

/-- A clean stream prefix for the witness. -/
def chunksW : List Chunk := [⟨"a", [tcEcho]⟩, ⟨"<browser-state>", [tcBoom]⟩]

/-- A state with the detection flag already set. -/
def stFlagged : StreamState :=
  { accumulatedText := "x", hasStartedThinking := true, hasMsgId := true,
    hasProhibitedContent := true, seenChunk := true }

/-- A clean state whose accumulated text is a marker prefix. -/
def stClean : StreamState :=
  { accumulatedText := "<browser-", hasStartedThinking := true,
    hasMsgId := true, seenChunk := true }

/-- The chunk that completes the marker. -/
def chunkW : Chunk := ⟨"state> hi", []⟩

/-- Witness for C6 at a concrete stream and concrete states: tool calls of
both chunks survive into the final message even though the second chunk
carries a forbidden marker; a flagged state stays silent; the detecting
step emits exactly the placeholder, the reminder and the error count. -/
theorem c6_witness :
    (invokeLLMWithStreaming chunksW).1.toolCalls =
      (chunksW.map Chunk.toolCalls).flatten
    ∧ ((streamStep stFlagged chunkW).2 = []
        ∧ (streamStep stFlagged chunkW).1.hasProhibitedContent = true)
    ∧ ((streamStep stClean chunkW).2 =
        (if stClean.hasMsgId then [StreamEvent.publishMessage "Processing..."]
         else []) ++
          [StreamEvent.queueSystemReminder correctiveReminder,
           StreamEvent.incrementErrorMetric]
        ∧ (streamStep stClean chunkW).1.hasProhibitedContent = true)
    ∧ finalEvents stFlagged = [] := by
  obtain ⟨hA, hB, hC, hD⟩ := c6_stream_filter
  exact ⟨hA chunksW, hB stFlagged chunkW rfl,
    hC stClean chunkW rfl (by decide) (by decide), hD stFlagged rfl⟩

/-! ### C4 — compaction replaces the history but caps below 100 are raised -/

/-- C4 amended core: for every history whose rendered text exceeds the
limit, one successful compaction pass replaces the entire entry sequence
with a single summary record labelled with the previous iteration, and —
provided the summarization model honoured the output cap the code requested
— the returned context is at most max(100, limit) tokens, hence at most the
limit whenever the limit is at least 100. -/
theorem c4_amended_compaction (count : String → Nat)
    (summarizer : Nat → String → String → Except String String)
    (iterations tokenLimit : Nat) (userTask : String)
    (history : List HistoryEntry) (s : String)
    (hne : ¬(history = []))
    (hover : count (renderHistory history) > tokenLimit)
    (hok : summarizer (if tokenLimit < 100 then 100 else tokenLimit) userTask
      (renderHistory history) = Except.ok s)
    (hcap : count s ≤ (if tokenLimit < 100 then 100 else tokenLimit)) :
    buildExecutionHistoryContext count summarizer iterations tokenLimit
        userTask history =
      ⟨s, [{ iteration := iterations - 1, summary := some s }]⟩
    ∧ count (buildExecutionHistoryContext count summarizer iterations
        tokenLimit userTask history).context ≤
        (if tokenLimit < 100 then 100 else tokenLimit)
    ∧ (100 ≤ tokenLimit →
        count (buildExecutionHistoryContext count summarizer iterations
          tokenLimit userTask history).context ≤ tokenLimit) := by
  have hE : history.isEmpty = false := by
    cases history with
    | nil => exact absurd rfl hne
    | cons a t => rfl
  have hb : buildExecutionHistoryContext count summarizer iterations
      tokenLimit userTask history =
      ⟨s, [{ iteration := iterations - 1, summary := some s }]⟩ := by
    simp only [buildExecutionHistoryContext, summarizeExecutionHistory, hE,
      Bool.false_eq_true, if_false]
    rw [if_pos hover, hok]
  refine ⟨hb, ?_, ?_⟩
  · rw [hb]
    exact hcap
  · intro h100
    have hif : (if tokenLimit < 100 then 100 else tokenLimit) = tokenLimit := by
      rw [if_neg]
      omega
    rw [hb]
    rw [hif] at hcap
    exact hcap

/-- An execution history whose rendered text exceeds 50 tokens. -/
def cexHistory : List HistoryEntry :=
  [{ iteration := 1, tool := some "click", args := some "sel1",
     result := some { ok := true } },
   { iteration := 2, tool := some "type", args := some "sel2",
     result := some { ok := false, error := some "no node" } },
   { iteration := 3, tool := some "scroll", args := some "down",
     result := some { ok := true } }]

/-- A summary longer than 50 tokens but within the 100-token cap the code
requests for a limit of 50. -/
def cexSummary : String :=
  "The agent clicked and typed and scrolled; the type action failed on a missing node."

/-- A summarization oracle that returns `cexSummary` — legal behaviour for
an LLM capped at 100 output tokens. -/
def cexSummarizer : Nat → String → String → Except String String :=
  fun _ _ _ => Except.ok cexSummary

set_option maxRecDepth 10000 in
/-- C4 counterexample: for the token limit 50, the compaction pass does
replace the history with a single summary record, and the summarizer stays
within the output cap the code itself requested (raised from 50 to 100 at
lines 593-595) — yet the returned context exceeds the 50-token limit, so
"the rendered result is at most the token limit" is false as stated. -/
theorem c4_counterexample :
    String.length (renderHistory cexHistory) > 50
    ∧ summarizeExecutionHistory cexSummarizer "task" 50
        (renderHistory cexHistory) = Except.ok cexSummary
    ∧ String.length cexSummary ≤ 100
    ∧ (buildExecutionHistoryContext String.length cexSummarizer 5 50 "task"
        cexHistory).history = [{ iteration := 4, summary := some cexSummary }]
    ∧ String.length (buildExecutionHistoryContext String.length cexSummarizer
        5 50 "task" cexHistory).context > 50 := by
  refine ⟨by decide, rfl, by decide, by decide, by decide⟩

/-- A single-entry history whose rendered text exceeds 200 tokens. -/
def wHistory : List HistoryEntry :=
  [{ iteration := 1, tool := some "extract",
     args := some (String.mk (List.replicate 200 'a')),
     result := some { ok := true } }]

/-- A short summary. -/
def wSummary : String := "Extracted page content."

/-- A summarization oracle returning the short summary. -/
def wSummarizer : Nat → String → String → Except String String :=
  fun _ _ _ => Except.ok wSummary

set_option maxRecDepth 10000 in
/-- Witness for the amended C4 at a concrete history and the limit 200 (at
least 100, so the original bound applies): the history becomes one summary
record for iterations 1-6 and the context fits the limit. -/
theorem c4_witness :
    buildExecutionHistoryContext String.length wSummarizer 7 200 "t" wHistory
      = ⟨wSummary, [{ iteration := 6, summary := some wSummary }]⟩
    ∧ String.length (buildExecutionHistoryContext String.length wSummarizer 7
        200 "t" wHistory).context ≤ 200 := by
  obtain ⟨h1, h2, h3⟩ := c4_amended_compaction String.length wSummarizer 7 200
    "t" wHistory wSummary (by decide) (by decide) rfl (by decide)
  exact ⟨h1, h3 (by omega)⟩

/-! ### C7 — summarization failure degrades to the last 5 entries -/

/-- C7: when the summarization sub-call fails (all its retries exhausted),
the context builder does not abort the run: it returns the most recent 5
history entries rendered verbatim and leaves the history untouched. -/
theorem c7_summarization_failure_fallback (count : String → Nat)
    (summarizer : Nat → String → String → Except String String)
    (iterations tokenLimit : Nat) (userTask : String)
    (history : List HistoryEntry) (e : String)
    (hne : ¬(history = []))
    (hover : count (renderHistory history) > tokenLimit)
    (hfail : summarizer (if tokenLimit < 100 then 100 else tokenLimit)
      userTask (renderHistory history) = Except.error e) :
    buildExecutionHistoryContext count summarizer iterations tokenLimit
        userTask history =
      ⟨renderHistory (history.drop (history.length - 5)), history⟩ := by
  have hE : history.isEmpty = false := by
    cases history with
    | nil => exact absurd rfl hne
    | cons a t => rfl
  simp only [buildExecutionHistoryContext, summarizeExecutionHistory, hE,
    Bool.false_eq_true, if_false]
  rw [if_pos hover, hfail]

/-- A summarization oracle that always fails. -/
def failSummarizer : Nat → String → String → Except String String :=
  fun _ _ _ => Except.error "LLM unavailable"

/-- A short call record for the fallback witness. -/
def mkE (i : Nat) : HistoryEntry :=
  { iteration := i, tool := some "click", args := some "s",
    result := some { ok := true } }

/-- A seven-entry history for the fallback witness. -/
def hist7 : List HistoryEntry :=
  [mkE 1, mkE 2, mkE 3, mkE 4, mkE 5, mkE 6, mkE 7]

set_option maxRecDepth 10000 in
/-- Witness for C7 at a concrete seven-entry history: the fallback returns
exactly the rendering of the most recent 5 entries (entries 3-7) and keeps
the history. -/
theorem c7_witness :
    buildExecutionHistoryContext String.length failSummarizer 8 3 "t" hist7
      = ⟨renderHistory (hist7.drop (hist7.length - 5)), hist7⟩
    ∧ hist7.drop (hist7.length - 5) = [mkE 3, mkE 4, mkE 5, mkE 6, mkE 7] := by
  refine ⟨c7_summarization_failure_fallback String.length failSummarizer 8 3
    "t" hist7 "LLM unavailable" (by decide) (by decide) rfl, by decide⟩

end LocalAgent
